import Mathlib

/-! # search-module: the stub search client and the two query builders

A shallow embedding of `src/search.go`.

* Go's `interface{}` values are modelled by `GoValue`, a JSON-like tagged union
  (nil, bool, integer, string, slice, string-keyed map, struct).
* A Go map is an association list with pairwise distinct keys, built only through
  `mapSet` (the assignment `m[k] = v`); a map literal is the sequence of
  assignments of its entries to a fresh map (`mapLiteral`).
* A value of the static type `map[string]interface{}` or `[]T` may be nil, so both
  are modelled with `Option`: `none` is the nil map / nil slice.
* A `*ElasticsearchClient` is modelled by `Option ElasticsearchClient` (`none` is
  the nil pointer, `some s` a pointer to a struct whose current contents are `s`);
  every method returns the contents after the call next to its Go results.
* `error` is `Option GoError`, `none` being the nil error.
-/

namespace Search

/-! ## Dynamic values -/

/-- Values that an `interface{}` can hold in this development. -/
inductive GoValue where
  | nil : GoValue
  | bool (b : Bool) : GoValue
  | num (n : Int) : GoValue
  | str (s : String) : GoValue
  | list (xs : List GoValue) : GoValue
  | map (entries : List (String × GoValue)) : GoValue
  | struct (typeName : String) (fields : List (String × GoValue)) : GoValue

/-- Entries of a non-nil `map[string]interface{}`. -/
abbrev Entries := List (String × GoValue)

/-- The static type `map[string]interface{}`; `none` is the nil map. -/
abbrev GoMap := Option Entries

/-- The static type `[]map[string]interface{}`; `none` is the nil slice. -/
abbrev GoMapSlice := Option (List GoMap)

/-- The map index expression `m[k]` with the comma-ok result folded into `Option`. -/
def mapGet : Entries → String → Option GoValue
  | [], _ => none
  | (k2, v) :: rest, k => if k2 = k then some v else mapGet rest k

/-- The assignment `m[k] = v`: overwrite the entry of `k` or add one. -/
def mapSet : Entries → String → GoValue → Entries
  | [], k, v => [(k, v)]
  | (k2, v2) :: rest, k, v => if k2 = k then (k, v) :: rest else (k2, v2) :: mapSet rest k v

/-- A map literal `map[string]interface{}{k1: v1, ...}`: a fresh map that receives
the entries in order. -/
def mapLiteral (kvs : List (String × GoValue)) : Entries :=
  kvs.foldl (fun m kv => mapSet m kv.1 kv.2) []

/-- Indexing a possibly nil map: reading from the nil map finds nothing. -/
def GoMap.get : GoMap → String → Option GoValue
  | none, _ => none
  | some es, k => mapGet es k

/-- The builtin `len` on a possibly nil map. -/
def GoMap.len : GoMap → Nat
  | none => 0
  | some es => es.length

/-- Indexing the map held by an interface value (the type assertion
`v.(map[string]interface{})[k]`); a struct is read by field name. -/
def GoValue.get : GoValue → String → Option GoValue
  | .map es, k => mapGet es k
  | .struct _ fs, k => mapGet fs k
  | _, _ => none

/-- Number of entries of the map held by an interface value. -/
def GoValue.len : GoValue → Nat
  | .map es => es.length
  | .list xs => xs.length
  | _ => 0

/-- The builtin `len` on a possibly nil slice. -/
def GoMapSlice.len : GoMapSlice → Nat
  | none => 0
  | some xs => xs.length

/-- The elements a `range` over a possibly nil slice visits. -/
def GoMapSlice.elems : GoMapSlice → List GoMap
  | none => []
  | some xs => xs

mutual
/-- The library function `reflect.DeepEqual` on dynamic values: same dynamic type,
scalars equal, slices equal element by element, maps of the same length such that every
key of the first is bound in the second to a deeply equal value. -/
def GoValue.deepEqual : GoValue → GoValue → Bool
  | .nil, .nil => true
  | .bool a, .bool b => a == b
  | .num a, .num b => a == b
  | .str a, .str b => a == b
  | .list a, .list b => deepEqualList a b
  | .map a, .map b => a.length == b.length && deepEqualEntries a b
  | .struct s a, .struct t b => s == t && deepEqualFields a b
  | _, _ => false
/-- Element-wise comparison of two slices. -/
def deepEqualList : List GoValue → List GoValue → Bool
  | [], [] => true
  | x :: xs, y :: ys => GoValue.deepEqual x y && deepEqualList xs ys
  | _, _ => false
/-- Every entry of the first map is bound to a deeply equal value in the second. -/
def deepEqualEntries : List (String × GoValue) → List (String × GoValue) → Bool
  | [], _ => true
  | (k, v) :: rest, b =>
    (match mapGet b k with
      | some w => GoValue.deepEqual v w
      | none => false) && deepEqualEntries rest b
/-- Field-by-field comparison of two structs of the same type. -/
def deepEqualFields : List (String × GoValue) → List (String × GoValue) → Bool
  | [], [] => true
  | (k, v) :: rest, (k2, w) :: rest2 => k == k2 && GoValue.deepEqual v w && deepEqualFields rest rest2
  | _, _ => false
end

/-- The library function `reflect.DeepEqual` at the static type
`map[string]interface{}`: a nil map is deeply equal only to a nil map. -/
def GoMap.deepEqual : GoMap → GoMap → Bool
  | none, none => true
  | some a, some b => GoValue.deepEqual (.map a) (.map b)
  | _, _ => false

/-- Whether a result slice holds a map deeply equal to the document `doc`. -/
def GoMapSlice.containsDoc (s : GoMapSlice) (doc : GoValue) : Bool :=
  s.elems.any (fun m =>
    match m with
    | some es => GoValue.deepEqual (.map es) doc
    | none => false)

/-! ## Errors and contexts -/

/-- Go `error` values: the two sentinel errors of package `context`, or any other
error (identified by its message). The nil error is `none : Option GoError`. -/
inductive GoError where
  | canceled : GoError
  | deadlineExceeded : GoError
  | other (msg : String) : GoError
  deriving DecidableEq

/-- Life-cycle state of a `context.Context`. -/
inductive CtxState where
  | active : CtxState
  | canceled : CtxState
  | deadlineExceeded : CtxState
  deriving DecidableEq

/-- The part of a `context.Context` that a callee can observe through `ctx.Err()`. -/
structure Context where
  state : CtxState
  deriving DecidableEq

/-- The context `context.Background()`: never cancelled, no deadline. -/
def Context.Background : Context := ⟨CtxState.active⟩

/-- The method `ctx.Err()`: nil while the context is live, otherwise why it ended. -/
def Context.Err (ctx : Context) : Option GoError :=
  match ctx.state with
  | .active => none
  | .canceled => some .canceled
  | .deadlineExceeded => some .deadlineExceeded

/-! ## The client (`src/search.go`, lines 13-34) -/

/-- The struct `ElasticsearchClient`. -/
structure ElasticsearchClient where
  url : String
  deriving DecidableEq

/-- The pointer type `*ElasticsearchClient`. -/
abbrev ClientPtr := Option ElasticsearchClient

/-- The two results of `Search`. -/
structure SearchReturn where
  results : GoMapSlice
  err : Option GoError

/-- The constructor `NewClient(url)`: `&ElasticsearchClient{url: url}`. -/
def NewClient (url : String) : ClientPtr :=
  some (ElasticsearchClient.mk url)

/-- The method `(*ElasticsearchClient).Index`: `return nil`. -/
def ElasticsearchClient.Index (c : ClientPtr) (_ctx : Context) (_index _id : String)
    (_doc : GoValue) : ClientPtr × Option GoError :=
  (c, none)

/-- The method `(*ElasticsearchClient).Search`: `return nil, nil`. -/
def ElasticsearchClient.Search (c : ClientPtr) (_ctx : Context) (_index : String)
    (_query : GoMap) : ClientPtr × SearchReturn :=
  (c, SearchReturn.mk none none)

/-- The method `(*ElasticsearchClient).Delete`: `return nil`. -/
def ElasticsearchClient.Delete (c : ClientPtr) (_ctx : Context) (_index _id : String) :
    ClientPtr × Option GoError :=
  (c, none)

/-- One call on a client through the `SearchClient` capability set. -/
inductive Call where
  | index (ctx : Context) (index id : String) (doc : GoValue) : Call
  | search (ctx : Context) (index : String) (query : GoMap) : Call
  | delete (ctx : Context) (index id : String) : Call

/-- The client contents after one call. -/
def Call.run (c : ClientPtr) : Call → ClientPtr
  | .index ctx idx id doc => (ElasticsearchClient.Index c ctx idx id doc).1
  | .search ctx idx query => (ElasticsearchClient.Search c ctx idx query).1
  | .delete ctx idx id => (ElasticsearchClient.Delete c ctx idx id).1

/-- The client contents after a sequence of calls, oldest first. -/
def runCalls (c : ClientPtr) (calls : List Call) : ClientPtr :=
  calls.foldl Call.run c

/-! ## The query builders (`src/search.go`, lines 36-54) -/

/-- The function `BuildMatchQuery(field, value)`. -/
def BuildMatchQuery (field value : String) : GoMap :=
  some (mapLiteral [
    ("query", GoValue.map (mapLiteral [
      ("match", GoValue.map (mapLiteral [
        (field, GoValue.str value)]))]))])

/-- The function `BuildTermQuery(field, value)`. -/
def BuildTermQuery (field value : String) : GoMap :=
  some (mapLiteral [
    ("query", GoValue.map (mapLiteral [
      ("term", GoValue.map (mapLiteral [
        (field, GoValue.str value)]))]))])

/-! ## Helper lemmas -/

theorem mapLiteral_single (k : String) (v : GoValue) : mapLiteral [(k, v)] = [(k, v)] := rfl

theorem mapGet_single_self (k : String) (v : GoValue) : mapGet [(k, v)] k = some v := by
  simp [mapGet]

theorem BuildMatchQuery_eq (field value : String) :
    BuildMatchQuery field value
      = some [("query", GoValue.map [("match", GoValue.map [(field, GoValue.str value)])])] := rfl

theorem BuildTermQuery_eq (field value : String) :
    BuildTermQuery field value
      = some [("query", GoValue.map [("term", GoValue.map [(field, GoValue.str value)])])] := rfl

theorem runCalls_eq (c : ClientPtr) (calls : List Call) : runCalls c calls = c := by
  induction calls generalizing c with
  | nil => rfl
  | cons call rest ih =>
    have hstep : Call.run c call = c := by cases call <;> rfl
    show runCalls (Call.run c call) rest = c
    rw [ih, hstep]

/-! ## The query builders -/

/-- Claim C1: for every non-empty `field` and every `value`, `BuildMatchQuery field value`
is exactly the map with the single key "query", bound to a map with the single key
"match", bound to a map with the single entry `field -> value`: each of the three
levels has length one and holds the stated key, and the result is deeply equal to that
map. -/
theorem BuildMatchQuery_exact (field value : String) (_hfield : field ≠ "") :
    BuildMatchQuery field value
        = some [("query", GoValue.map [("match", GoValue.map [(field, GoValue.str value)])])]
      ∧ GoMap.deepEqual (BuildMatchQuery field value)
          (some [("query", GoValue.map [("match", GoValue.map [(field, GoValue.str value)])])])
          = true
      ∧ (BuildMatchQuery field value).len = 1
      ∧ ∃ clause pair : GoValue,
          (BuildMatchQuery field value).get "query" = some clause ∧ clause.len = 1
          ∧ clause.get "match" = some pair ∧ pair.len = 1
          ∧ pair.get field = some (GoValue.str value) := by
  refine ⟨rfl, ?_, rfl, GoValue.map [("match", GoValue.map [(field, GoValue.str value)])],
    GoValue.map [(field, GoValue.str value)], ?_, rfl, ?_, rfl, ?_⟩
  · simp [BuildMatchQuery_eq, GoMap.deepEqual, GoValue.deepEqual, deepEqualEntries, mapGet]
  · rw [BuildMatchQuery_eq]; exact mapGet_single_self _ _
  · exact mapGet_single_self _ _
  · exact mapGet_single_self _ _

/-- The builder of claim C1 applied to the pair used by the repository's test. -/
theorem BuildMatchQuery_exact_witness :
    "title" ≠ "" ∧
    BuildMatchQuery "title" "test document"
      = some [("query", GoValue.map [("match",
          GoValue.map [("title", GoValue.str "test document")])])] :=
  ⟨by decide, (BuildMatchQuery_exact "title" "test document" (by decide)).1⟩

/-- Claim C2: for every non-empty `field` and every `value`, `BuildTermQuery field value`
is exactly the map with the single key "query", bound to a map with the single key
"term", bound to a map with the single entry `field -> value`: each of the three
levels has length one and holds the stated key, and the result is deeply equal to that
map. -/
theorem BuildTermQuery_exact (field value : String) (_hfield : field ≠ "") :
    BuildTermQuery field value
        = some [("query", GoValue.map [("term", GoValue.map [(field, GoValue.str value)])])]
      ∧ GoMap.deepEqual (BuildTermQuery field value)
          (some [("query", GoValue.map [("term", GoValue.map [(field, GoValue.str value)])])])
          = true
      ∧ (BuildTermQuery field value).len = 1
      ∧ ∃ clause pair : GoValue,
          (BuildTermQuery field value).get "query" = some clause ∧ clause.len = 1
          ∧ clause.get "term" = some pair ∧ pair.len = 1
          ∧ pair.get field = some (GoValue.str value) := by
  refine ⟨rfl, ?_, rfl, GoValue.map [("term", GoValue.map [(field, GoValue.str value)])],
    GoValue.map [(field, GoValue.str value)], ?_, rfl, ?_, rfl, ?_⟩
  · simp [BuildTermQuery_eq, GoMap.deepEqual, GoValue.deepEqual, deepEqualEntries, mapGet]
  · rw [BuildTermQuery_eq]; exact mapGet_single_self _ _
  · exact mapGet_single_self _ _
  · exact mapGet_single_self _ _

/-- The builder of claim C2 applied to the pair used by the repository's test. -/
theorem BuildTermQuery_exact_witness :
    "status" ≠ "" ∧
    BuildTermQuery "status" "published"
      = some [("query", GoValue.map [("term",
          GoValue.map [("status", GoValue.str "published")])])] :=
  ⟨by decide, (BuildTermQuery_exact "status" "published" (by decide)).1⟩

/-- Claim C9: the empty field name is accepted. For every `value` both builders return the
(non-nil) query whose innermost map has the single entry `"" -> value`; and for every
pair of strings both builders return a non-nil map (their result carries no error). -/
theorem builders_accept_empty_field (value : String) :
    BuildMatchQuery "" value
        = some [("query", GoValue.map [("match", GoValue.map [("", GoValue.str value)])])]
      ∧ BuildTermQuery "" value
        = some [("query", GoValue.map [("term", GoValue.map [("", GoValue.str value)])])]
      ∧ (((BuildMatchQuery "" value).get "query").bind (fun q => q.get "match"))
          = some (GoValue.map [("", GoValue.str value)])
      ∧ (((BuildTermQuery "" value).get "query").bind (fun q => q.get "term"))
          = some (GoValue.map [("", GoValue.str value)])
      ∧ (GoValue.map [("", GoValue.str value)]).len = 1
      ∧ (GoValue.map [("", GoValue.str value)]).get "" = some (GoValue.str value)
      ∧ ∀ field v : String,
          (BuildMatchQuery field v).isSome = true ∧ (BuildTermQuery field v).isSome = true := by
  refine ⟨rfl, rfl, ?_, ?_, rfl, ?_, fun _ _ => ⟨rfl, rfl⟩⟩
  · simp [BuildMatchQuery_eq, GoMap.get, GoValue.get, mapGet]
  · simp [BuildTermQuery_eq, GoMap.get, GoValue.get, mapGet]
  · simp [GoValue.get, mapGet]

/-- Claim C10: the builders lose no information. Two match queries are equal (as values,
and under `reflect.DeepEqual`) exactly when field and value agree, likewise two term
queries, and a match query is never equal to a term query. -/
theorem builders_injective (f1 v1 f2 v2 : String) :
    (BuildMatchQuery f1 v1 = BuildMatchQuery f2 v2 ↔ f1 = f2 ∧ v1 = v2)
      ∧ (BuildTermQuery f1 v1 = BuildTermQuery f2 v2 ↔ f1 = f2 ∧ v1 = v2)
      ∧ BuildMatchQuery f1 v1 ≠ BuildTermQuery f2 v2
      ∧ (GoMap.deepEqual (BuildMatchQuery f1 v1) (BuildMatchQuery f2 v2) = true
          ↔ f1 = f2 ∧ v1 = v2)
      ∧ (GoMap.deepEqual (BuildTermQuery f1 v1) (BuildTermQuery f2 v2) = true
          ↔ f1 = f2 ∧ v1 = v2)
      ∧ GoMap.deepEqual (BuildMatchQuery f1 v1) (BuildTermQuery f2 v2) = false := by
  refine ⟨?_, ?_, ?_, ?_, ?_, ?_⟩
  · simp [BuildMatchQuery_eq]
  · simp [BuildTermQuery_eq]
  · simp [BuildMatchQuery_eq, BuildTermQuery_eq]
  · simp [BuildMatchQuery_eq, GoMap.deepEqual, GoValue.deepEqual, deepEqualEntries, mapGet]
    by_cases h : f2 = f1
    · subst h; simp [GoValue.deepEqual]
    · have h2 : ¬ f1 = f2 := fun e => h e.symm
      simp [h, h2]
  · simp [BuildTermQuery_eq, GoMap.deepEqual, GoValue.deepEqual, deepEqualEntries, mapGet]
    by_cases h : f2 = f1
    · subst h; simp [GoValue.deepEqual]
    · have h2 : ¬ f1 = f2 := fun e => h e.symm
      simp [h, h2]
  · simp [BuildMatchQuery_eq, BuildTermQuery_eq, GoMap.deepEqual, GoValue.deepEqual,
      deepEqualEntries, mapGet]

/-! ## The client -/

/-- Claim C3, refuted as stated: on the client, context, index and query of the
repository's own test, `Search` returns the nil error together with the nil slice, so
"no error implies a non-nil sequence" fails. -/
theorem Search_success_yields_nil_results :
    ¬ ((ElasticsearchClient.Search (NewClient "http://localhost:9200") Context.Background
          "test-index" (BuildMatchQuery "title" "test")).2.err = none →
        (ElasticsearchClient.Search (NewClient "http://localhost:9200") Context.Background
          "test-index" (BuildMatchQuery "title" "test")).2.results ≠ none) :=
  fun h => h rfl rfl

/-- Claim C3, amended: for every client, context, index name and query, `Search` returns no
error and the returned sequence is the nil slice, whose length is zero. -/
theorem Search_returns_nil_slice (c : ClientPtr) (ctx : Context) (index : String)
    (query : GoMap) :
    (ElasticsearchClient.Search c ctx index query).2.err = none
      ∧ (ElasticsearchClient.Search c ctx index query).2.results = none
      ∧ (ElasticsearchClient.Search c ctx index query).2.results.len = 0 :=
  ⟨rfl, rfl, rfl⟩

/-- Claim C4: for every client, context, index name, field and value, `Search` called
with the output of `BuildMatchQuery field value` returns no error. -/
theorem Search_accepts_BuildMatchQuery (c : ClientPtr) (ctx : Context)
    (index field value : String) :
    (ElasticsearchClient.Search c ctx index (BuildMatchQuery field value)).2.err = none :=
  rfl

/-- Claim C5: `Delete` is idempotent. For every client, contexts, index name and id, the
first and the second of two consecutive `Delete` calls on the same (index, id) return no
error; and after any history of calls on a fresh client (in particular one that never
indexed the id) `Delete` returns no error. -/
theorem Delete_idempotent (c : ClientPtr) (ctx1 ctx2 : Context) (index id : String) :
    (ElasticsearchClient.Delete c ctx1 index id).2 = none
      ∧ (ElasticsearchClient.Delete
          (ElasticsearchClient.Delete c ctx1 index id).1 ctx2 index id).2 = none
      ∧ ∀ (url : String) (history : List Call),
          (ElasticsearchClient.Delete (runCalls (NewClient url) history) ctx1 index id).2
            = none :=
  ⟨rfl, rfl, fun _ _ => rfl⟩

/-- Claim C6, refuted as stated: after `Index` of a document titled "test document" under
"articles" has returned no error, `Search` with `BuildMatchQuery "title" "test"` on the
same client returns a sequence that does not contain the document. -/
theorem Search_misses_indexed_document :
    ¬ ((ElasticsearchClient.Index (NewClient "http://localhost:9200") Context.Background
          "articles" "doc-1" (GoValue.map [("title", GoValue.str "test document")])).2 = none →
        (ElasticsearchClient.Search
          (ElasticsearchClient.Index (NewClient "http://localhost:9200") Context.Background
            "articles" "doc-1" (GoValue.map [("title", GoValue.str "test document")])).1
          Context.Background "articles" (BuildMatchQuery "title" "test")).2.results.containsDoc
            (GoValue.map [("title", GoValue.str "test document")]) = true) := by
  intro h
  have hfalse := h rfl
  simp [ElasticsearchClient.Search, GoMapSlice.containsDoc, GoMapSlice.elems] at hfalse

/-- Claim C6, amended: after `Index ctx "articles" id doc` has returned no error for a
document whose title is "test document", `Search ctx "articles"
(BuildMatchQuery "title" "test")` on the same client returns no error and the nil
sequence, which does not contain the document. -/
theorem Search_after_Index_returns_nil (c : ClientPtr) (ctx : Context) (id : String)
    (doc : GoValue) (_htitle : doc.get "title" = some (GoValue.str "test document"))
    (_hindexed : (ElasticsearchClient.Index c ctx "articles" id doc).2 = none) :
    (ElasticsearchClient.Search (ElasticsearchClient.Index c ctx "articles" id doc).1 ctx
        "articles" (BuildMatchQuery "title" "test")).2.err = none
      ∧ (ElasticsearchClient.Search (ElasticsearchClient.Index c ctx "articles" id doc).1 ctx
        "articles" (BuildMatchQuery "title" "test")).2.results = none
      ∧ (ElasticsearchClient.Search (ElasticsearchClient.Index c ctx "articles" id doc).1 ctx
        "articles" (BuildMatchQuery "title" "test")).2.results.containsDoc doc = false :=
  ⟨rfl, rfl, rfl⟩

/-- The amended claim C6 on a fresh client and a map document titled "test document". -/
theorem Search_after_Index_returns_nil_witness :
    (GoValue.map [("title", GoValue.str "test document")]).get "title"
        = some (GoValue.str "test document")
      ∧ (ElasticsearchClient.Index (NewClient "http://localhost:9200") Context.Background
          "articles" "doc-1" (GoValue.map [("title", GoValue.str "test document")])).2 = none
      ∧ (ElasticsearchClient.Search
          (ElasticsearchClient.Index (NewClient "http://localhost:9200") Context.Background
            "articles" "doc-1" (GoValue.map [("title", GoValue.str "test document")])).1
          Context.Background "articles" (BuildMatchQuery "title" "test")).2.results = none :=
  ⟨by simp [GoValue.get, mapGet], rfl,
    (Search_after_Index_returns_nil (NewClient "http://localhost:9200") Context.Background
      "doc-1" (GoValue.map [("title", GoValue.str "test document")])
      (by simp [GoValue.get, mapGet]) rfl).2.1⟩

/-- Claim C7, refuted as stated: with an already cancelled context `Index` returns the nil
error, which is neither `Canceled` nor `DeadlineExceeded`. -/
theorem Index_ignores_cancelled_context :
    (Context.mk CtxState.canceled).Err = some GoError.canceled
      ∧ ¬ ((ElasticsearchClient.Index (NewClient "http://localhost:9200")
              (Context.mk CtxState.canceled) "test-index" "doc-1"
              (GoValue.map [("title", GoValue.str "Test Document")])).2 = some GoError.canceled
          ∨ (ElasticsearchClient.Index (NewClient "http://localhost:9200")
              (Context.mk CtxState.canceled) "test-index" "doc-1"
              (GoValue.map [("title", GoValue.str "Test Document")])).2
                = some GoError.deadlineExceeded) := by
  refine ⟨rfl, ?_⟩
  simp [ElasticsearchClient.Index]

/-- Claim C7, amended: cancellation is not reported. For every client and every input, when
the context passed to `Index`, `Search` or `Delete` is already cancelled or past its
deadline, the call still returns no error (and `Search` the nil sequence). -/
theorem cancelled_context_not_reported (c : ClientPtr) (ctx : Context) (index id : String)
    (doc : GoValue) (query : GoMap) (_hdone : ctx.Err ≠ none) :
    (ElasticsearchClient.Index c ctx index id doc).2 = none
      ∧ (ElasticsearchClient.Search c ctx index query).2.err = none
      ∧ (ElasticsearchClient.Search c ctx index query).2.results = none
      ∧ (ElasticsearchClient.Delete c ctx index id).2 = none :=
  ⟨rfl, rfl, rfl, rfl⟩

/-- The amended claim C7 at a context past its deadline. -/
theorem cancelled_context_not_reported_witness :
    (Context.mk CtxState.deadlineExceeded).Err ≠ none
      ∧ (ElasticsearchClient.Delete (NewClient "http://localhost:9200")
          (Context.mk CtxState.deadlineExceeded) "articles" "article-1").2 = none :=
  ⟨by decide,
    (cancelled_context_not_reported (NewClient "http://localhost:9200")
      (Context.mk CtxState.deadlineExceeded) "articles" "article-1" GoValue.nil none
      (by decide)).2.2.2⟩

/-- Claim C8: for every `url`, `NewClient url` is a non-nil client whose stored address is
`url`, and the address is still `url` after each of `Index`, `Search`, `Delete` and
after any sequence of such calls. -/
theorem NewClient_url_unchanged (url : String) :
    NewClient url ≠ none
      ∧ (NewClient url).map ElasticsearchClient.url = some url
      ∧ (∀ (ctx : Context) (index id : String) (doc : GoValue),
          (ElasticsearchClient.Index (NewClient url) ctx index id doc).1.map
            ElasticsearchClient.url = some url)
      ∧ (∀ (ctx : Context) (index : String) (query : GoMap),
          (ElasticsearchClient.Search (NewClient url) ctx index query).1.map
            ElasticsearchClient.url = some url)
      ∧ (∀ (ctx : Context) (index id : String),
          (ElasticsearchClient.Delete (NewClient url) ctx index id).1.map
            ElasticsearchClient.url = some url)
      ∧ ∀ calls : List Call,
          (runCalls (NewClient url) calls).map ElasticsearchClient.url = some url := by
  refine ⟨by simp [NewClient], rfl, fun _ _ _ _ => rfl, fun _ _ _ => rfl,
    fun _ _ _ => rfl, fun calls => ?_⟩
  rw [runCalls_eq]
  rfl

end Search
